import Mathlib

/-!
Verification of the entity behavior core of the cats-3d repository
(src/Cat.ts).  The `Cat` structure below is a shallow embedding of the
mutable fields of the `Cat` class together with the transforms of the
render nodes the class mutates (root position/rotation/scale, mouth
scale, leg rotations, tail rotation).  The methods `collidesWithObstacle`,
`pickNewTarget`, `updateWalking`, `animateLegs`, `onClick` and `update`
are translated directly from the source.  JavaScript numbers are modelled
as real numbers; `Math.random()` is modelled as an explicit stream
`rand : ℕ → ℝ` consumed at an index that is threaded through the
functions; `Date.now()` (used only for the tail sway) is passed in as a
parameter `now`.
-/

open scoped Classical

/-- Planar 3D vector, mirroring THREE.Vector3 (only the fields the
behavior core reads and writes). -/
structure Vec3 where
  x : ℝ
  y : ℝ
  z : ℝ

/-- An obstacle entry as stored by `Cat.addObstacle` (src/Cat.ts line 229):
a circular exclusion zone given by a center position and a radius. -/
structure Obstacle where
  position : Vec3
  radius : ℝ

/-- State of the positional audio handle (THREE.PositionalAudio); the only
observable the core reads is `isPlaying`. -/
structure SoundState where
  isPlaying : Bool

/-- The mutable state of one `Cat` entity: the private fields of the class
(src/Cat.ts lines 9-43) plus the transforms of the render nodes the
behavior code mutates. -/
structure Cat where
  position : Vec3
  rotY : ℝ
  scale : Vec3
  sound : Option SoundState
  isAnimating : Bool
  animationProgress : ℝ
  originalY : ℝ
  tailRotZ : ℝ
  mouthScaleY : ℝ
  targetPosition : Vec3
  walkTime : ℝ
  idleTime : ℝ
  isIdle : Bool
  idleDuration : ℝ
  obstacles : List Obstacle
  frontLeftLegRotX : ℝ
  frontRightLegRotX : ℝ
  backLeftLegRotX : ℝ
  backRightLegRotX : ℝ

/-- Constant field `walkSpeed = 0.8` (src/Cat.ts line 28); never reassigned. -/
def walkSpeed : ℝ := 0.8

/-- Constant field `boundaryRadius = 10` (src/Cat.ts line 34); never reassigned. -/
def boundaryRadius : ℝ := 10

/-- Constant field `mouthClosedScaleY = 0.3` (src/Cat.ts line 24); never reassigned. -/
def mouthClosedScaleY : ℝ := 0.3

/-- Constant field `mouthOpenScaleY = 1.2` (src/Cat.ts line 25); never reassigned. -/
def mouthOpenScaleY : ℝ := 1.2

/-- JavaScript Math.atan2(y, x), modelled as the argument of the complex
number x + y i (range (-pi, pi], agreeing with Math.atan2 away from the
signed-zero edge cases, which cannot arise here since the arguments are
never both zero). -/
noncomputable def atan2 (y x : ℝ) : ℝ := Complex.arg ⟨x, y⟩

/-- Cat.collidesWithObstacle (src/Cat.ts lines 236-246): linear scan of the
obstacle list; returns true when the planar (x,z) Euclidean distance from
the candidate position to some obstacle center is strictly below that
obstacle radius plus the buffer.  The buffer defaults to 0.5, exactly as
in the source signature. -/
noncomputable def collidesWithObstacle (obstacles : List Obstacle) (position : Vec3)
    (buffer : ℝ := 0.5) : Prop :=
  match obstacles with
  | [] => False
  | obstacle :: rest =>
    Real.sqrt ((position.x - obstacle.position.x) * (position.x - obstacle.position.x) +
        (position.z - obstacle.position.z) * (position.z - obstacle.position.z)) <
      obstacle.radius + buffer ∨
    collidesWithObstacle rest position buffer

/-- Cat.animateLegs (src/Cat.ts lines 317-335): diagonal-pair gait; front
left and back right legs get `sin(time) * 0.3`, the other two the
negation. -/
noncomputable def animateLegs (s : Cat) (time : ℝ) : Cat :=
  let legSwing := Real.sin time * 0.3
  { s with frontLeftLegRotX := legSwing, backRightLegRotX := legSwing,
           frontRightLegRotX := -legSwing, backLeftLegRotX := -legSwing }

/-- The candidate destination sampled by one iteration of the retry loop of
Cat.pickNewTarget (src/Cat.ts lines 343-349), where `j` is the index in
the random stream of the first of the two Math.random() calls of that
iteration: angle = rand j * pi * 2, distance = rand (j+1) * boundaryRadius,
candidate = (cos angle * distance, 0, sin angle * distance). -/
noncomputable def candidateAt (rand : ℕ → ℝ) (j : ℕ) : Vec3 :=
  ⟨Real.cos (rand j * Real.pi * 2) * (rand (j + 1) * boundaryRadius), 0,
   Real.sin (rand j * Real.pi * 2) * (rand (j + 1) * boundaryRadius)⟩

/-- The retry loop of Cat.pickNewTarget (src/Cat.ts lines 342-356), with
`fuel` counting the remaining attempts (10 at entry) and `k` the current
random-stream index.  Returns the accepted candidate, if any, and the
random-stream index after the loop.  A candidate is accepted (and the
loop exits) exactly when it does not collide under buffer 0.8. -/
noncomputable def pickLoop (obstacles : List Obstacle) (rand : ℕ → ℝ) :
    ℕ → ℕ → Option Vec3 × ℕ
  | 0, k => (none, k)
  | fuel + 1, k =>
    if collidesWithObstacle obstacles (candidateAt rand k) 0.8 then
      pickLoop obstacles rand fuel (k + 2)
    else
      (some (candidateAt rand k), k + 2)

/-- Cat.pickNewTarget (src/Cat.ts lines 340-359): run the retry loop; when
a candidate was accepted, copy it into targetPosition (exhaustion leaves
targetPosition untouched, since the copy happens only inside the
non-collision branch); then re-randomize idleDuration to 1 + random * 3. -/
noncomputable def pickNewTarget (rand : ℕ → ℝ) (s : Cat) (k : ℕ) : Cat × ℕ :=
  let r := pickLoop s.obstacles rand 10 k
  let s1 := match r.1 with
    | some candidate => { s with targetPosition := candidate }
    | none => s
  ({ s1 with idleDuration := 1 + rand r.2 * 3 }, r.2 + 1)

/-- The local `direction.x` of Cat.updateWalking before normalization
(src/Cat.ts lines 266-268): targetPosition.x - position.x. -/
def directionX (s : Cat) : ℝ := s.targetPosition.x - s.position.x

/-- The local `direction.z` of Cat.updateWalking before normalization
(src/Cat.ts lines 266-268): targetPosition.z - position.z. -/
def directionZ (s : Cat) : ℝ := s.targetPosition.z - s.position.z

/-- The local `distance` of Cat.updateWalking (src/Cat.ts line 269): length
of the direction vector after its y component is zeroed. -/
noncomputable def targetDistance (s : Cat) : ℝ :=
  Real.sqrt (directionX s * directionX s + directionZ s * directionZ s)

/-- The local `targetAngle` of Cat.updateWalking (src/Cat.ts line 282):
Math.atan2 of the normalized direction components (x, z). -/
noncomputable def desiredAngle (s : Cat) : ℝ :=
  atan2 (directionX s / targetDistance s) (directionZ s / targetDistance s)

/-- The local `normalizedDiff` of Cat.updateWalking (src/Cat.ts line 287):
the angle difference to the desired heading wrapped to (-pi, pi] via
atan2(sin, cos). -/
noncomputable def normalizedAngleDiff (s : Cat) : ℝ :=
  atan2 (Real.sin (desiredAngle s - s.rotY)) (Real.cos (desiredAngle s - s.rotY))

/-- The local `nextPosition` of Cat.updateWalking (src/Cat.ts lines 291-296):
current position advanced by the normalized direction times
`walkSpeed * deltaTime`, with y set to 0. -/
noncomputable def nextPosition (s : Cat) (deltaTime : ℝ) : Vec3 :=
  ⟨s.position.x + directionX s / targetDistance s * (walkSpeed * deltaTime), 0,
   s.position.z + directionZ s / targetDistance s * (walkSpeed * deltaTime)⟩

/-- Cat.updateWalking (src/Cat.ts lines 251-312).  Idle branch: accumulate
idle time and, once it reaches idleDuration, leave the idle state, zero
the timer and pick a new target; legs are driven to neutral in both
cases.  Walking branch: if the distance to the target is below 0.2,
become idle; otherwise rotate the heading by the proportional term, then
test the proposed next step against the obstacles (default buffer) - on
collision pick a new target and skip movement, otherwise advance the
planar position, accumulate the walk phase and animate the legs. -/
noncomputable def updateWalking (rand : ℕ → ℝ) (deltaTime : ℝ) (s : Cat) (k : ℕ) :
    Cat × ℕ :=
  if s.isIdle then
    let idleTime := s.idleTime + deltaTime
    if idleTime ≥ s.idleDuration then
      let r := pickNewTarget rand { s with isIdle := false, idleTime := 0 } k
      (animateLegs r.1 0, r.2)
    else
      (animateLegs { s with idleTime := idleTime } 0, k)
  else if targetDistance s < 0.2 then
    (animateLegs { s with isIdle := true } 0, k)
  else
    let rotY := s.rotY + normalizedAngleDiff s * deltaTime * 3
    if collidesWithObstacle s.obstacles (nextPosition s deltaTime) then
      pickNewTarget rand { s with rotY := rotY } k
    else
      let s1 := { s with rotY := rotY,
                         position := { s.position with x := (nextPosition s deltaTime).x,
                                                       z := (nextPosition s deltaTime).z },
                         walkTime := s.walkTime + deltaTime * 8 }
      (animateLegs s1 s1.walkTime, k)

/-- Cat.onClick (src/Cat.ts lines 364-371): if a sound handle exists and is
not already playing, start it; in all cases set the reacting flag and
reset the reaction progress to 0. -/
def onClick (s : Cat) : Cat :=
  let s1 := match s.sound with
    | some snd => if snd.isPlaying then s else { s with sound := some ⟨true⟩ }
    | none => s
  { s1 with isAnimating := true, animationProgress := 0 }

/-- Cat.update (src/Cat.ts lines 377-432).  Every tick the tail sway is set
from the wall clock (`now` models Date.now()).  When not reacting, the
walking behavior runs and the call returns.  When reacting, progress
advances by deltaTime / 3; on reaching 1 the pose snaps back to resting
values and the reacting flag clears, otherwise the bounce / squash /
mouth pose for the new progress value is applied. -/
noncomputable def update (rand : ℕ → ℝ) (now deltaTime : ℝ) (s : Cat) (k : ℕ) :
    Cat × ℕ :=
  let s0 := { s with tailRotZ := Real.sin (now * 0.003) * 0.3 }
  let w := if s0.isAnimating then (s0, k) else updateWalking rand deltaTime s0 k
  let s1 := w.1
  if s1.isAnimating then
    let duration : ℝ := 3.0
    let animationProgress := s1.animationProgress + deltaTime / duration
    if animationProgress ≥ 1 then
      ({ s1 with position := { s1.position with y := s1.originalY },
                 scale := ⟨1, 1, 1⟩,
                 isAnimating := false,
                 animationProgress := 0,
                 mouthScaleY := mouthClosedScaleY }, w.2)
    else
      let bounceCount : ℝ := 3
      let bounce := Real.sin (animationProgress * Real.pi * bounceCount)
      let fadeOut := 1 - animationProgress * 0.7
      let squash := 1 + |bounce| * 0.1 * fadeOut
      ({ s1 with animationProgress := animationProgress,
                 position := { s1.position with
                                 y := s1.originalY + |bounce| * 0.3 * fadeOut },
                 scale := ⟨1 + |bounce| * 0.08 * fadeOut, squash,
                           1 - |bounce| * 0.04 * fadeOut⟩,
                 mouthScaleY := mouthClosedScaleY +
                   (mouthOpenScaleY - mouthClosedScaleY) * |bounce| * fadeOut }, w.2)
  else
    (s1, w.2)

/-- The Cat constructor (src/Cat.ts lines 45-224), restricted to the
behavior-relevant state: root transform at the given position with
identity scale and zero rotation, mouth closed, reaction state clear,
wander accumulators zeroed, empty obstacle list, originalY recorded from
the construction position, an initial target picked via pickNewTarget,
and a sound handle created only when an audio buffer is supplied. -/
noncomputable def mkCat (rand : ℕ → ℝ) (position : Vec3) (audioBuffer : Option Unit)
    (k : ℕ) : Cat × ℕ :=
  let s : Cat := {
    position := position,
    rotY := 0,
    scale := ⟨1, 1, 1⟩,
    sound := audioBuffer.map (fun _ => ⟨false⟩),
    isAnimating := false,
    animationProgress := 0,
    originalY := position.y,
    tailRotZ := 0,
    mouthScaleY := mouthClosedScaleY,
    targetPosition := ⟨0, 0, 0⟩,
    walkTime := 0,
    idleTime := 0,
    isIdle := false,
    idleDuration := 0,
    obstacles := [],
    frontLeftLegRotX := 0,
    frontRightLegRotX := 0,
    backLeftLegRotX := 0,
    backRightLegRotX := 0 }
  pickNewTarget rand s k

/-! ## Helper lemmas shared by the claim theorems -/

/-- Characterization of the obstacle scan as an existential over the list. -/
lemma collidesWithObstacle_iff_exists (obstacles : List Obstacle) (position : Vec3)
    (buffer : ℝ) :
    collidesWithObstacle obstacles position buffer ↔
      ∃ o ∈ obstacles,
        Real.sqrt ((position.x - o.position.x) * (position.x - o.position.x) +
            (position.z - o.position.z) * (position.z - o.position.z)) <
          o.radius + buffer := by
  induction obstacles with
  | nil => simp [collidesWithObstacle]
  | cons obstacle rest ih =>
    simp only [collidesWithObstacle, ih, List.mem_cons]
    constructor
    · rintro (h | ⟨o, ho, h⟩)
      · exact ⟨obstacle, Or.inl rfl, h⟩
      · exact ⟨o, Or.inr ho, h⟩
    · rintro ⟨o, (rfl | ho), h⟩
      · exact Or.inl h
      · exact Or.inr ⟨o, ho, h⟩

/-- pickNewTarget changes only targetPosition and idleDuration; every other
field of the state is returned unchanged. -/
lemma pickNewTarget_fields (rand : ℕ → ℝ) (s : Cat) (k : ℕ) :
    (pickNewTarget rand s k).1.position = s.position ∧
    (pickNewTarget rand s k).1.rotY = s.rotY ∧
    (pickNewTarget rand s k).1.scale = s.scale ∧
    (pickNewTarget rand s k).1.sound = s.sound ∧
    (pickNewTarget rand s k).1.isAnimating = s.isAnimating ∧
    (pickNewTarget rand s k).1.animationProgress = s.animationProgress ∧
    (pickNewTarget rand s k).1.originalY = s.originalY ∧
    (pickNewTarget rand s k).1.tailRotZ = s.tailRotZ ∧
    (pickNewTarget rand s k).1.mouthScaleY = s.mouthScaleY ∧
    (pickNewTarget rand s k).1.walkTime = s.walkTime ∧
    (pickNewTarget rand s k).1.idleTime = s.idleTime ∧
    (pickNewTarget rand s k).1.isIdle = s.isIdle ∧
    (pickNewTarget rand s k).1.obstacles = s.obstacles ∧
    (pickNewTarget rand s k).1.frontLeftLegRotX = s.frontLeftLegRotX ∧
    (pickNewTarget rand s k).1.frontRightLegRotX = s.frontRightLegRotX ∧
    (pickNewTarget rand s k).1.backLeftLegRotX = s.backLeftLegRotX ∧
    (pickNewTarget rand s k).1.backRightLegRotX = s.backRightLegRotX := by
  unfold pickNewTarget
  cases hm : (pickLoop s.obstacles rand 10 k).1 <;> simp [hm]

/-- The target produced by pickNewTarget depends only on the obstacle list
and the previous target, not on the rest of the state. -/
lemma pickNewTarget_target_congr (rand : ℕ → ℝ) (s t : Cat) (k : ℕ)
    (hobs : s.obstacles = t.obstacles)
    (htar : s.targetPosition = t.targetPosition) :
    (pickNewTarget rand s k).1.targetPosition =
      (pickNewTarget rand t k).1.targetPosition := by
  unfold pickNewTarget
  rw [hobs]
  cases hm : (pickLoop t.obstacles rand 10 k).1 <;> simp [hm, htar]

/-- When every candidate of the retry loop collides, the loop exhausts its
fuel, accepts nothing, and consumes two random draws per attempt. -/
lemma pickLoop_none_of_collides (obstacles : List Obstacle) (rand : ℕ → ℝ) :
    ∀ fuel k,
      (∀ i, i < fuel → collidesWithObstacle obstacles (candidateAt rand (k + 2 * i)) 0.8) →
      pickLoop obstacles rand fuel k = (none, k + 2 * fuel)
  | 0, k, _ => by simp [pickLoop]
  | fuel + 1, k, h => by
    have h0 : collidesWithObstacle obstacles (candidateAt rand k) 0.8 := by
      simpa using h 0 (Nat.succ_pos _)
    have hrec := pickLoop_none_of_collides obstacles rand fuel (k + 2) (by
      intro i hi
      have := h (i + 1) (by omega)
      have harg : k + 2 * (i + 1) = k + 2 + 2 * i := by omega
      rwa [harg] at this)
    rw [pickLoop, if_pos h0, hrec]
    have : k + 2 + 2 * fuel = k + 2 * (fuel + 1) := by omega
    rw [this]

/-- Any candidate accepted by the retry loop is one of the sampled
candidates and does not collide under the destination buffer 0.8. -/
lemma pickLoop_some_spec (obstacles : List Obstacle) (rand : ℕ → ℝ) :
    ∀ fuel k c k2, pickLoop obstacles rand fuel k = (some c, k2) →
      ∃ j, c = candidateAt rand j ∧
        ¬ collidesWithObstacle obstacles (candidateAt rand j) 0.8
  | 0, k, c, k2, h => by simp [pickLoop] at h
  | fuel + 1, k, c, k2, h => by
    rw [pickLoop] at h
    by_cases hc : collidesWithObstacle obstacles (candidateAt rand k) 0.8
    · rw [if_pos hc] at h
      exact pickLoop_some_spec obstacles rand fuel (k + 2) c k2 h
    · rw [if_neg hc] at h
      refine ⟨k, ?_, hc⟩
      simp only [Prod.mk.injEq, Option.some.injEq] at h
      exact h.1.symm

/-- Every sampled candidate lies inside the wander disk: its planar distance
to the world origin is the sampled distance `rand (j+1) * boundaryRadius`,
which is below boundaryRadius when the random draws lie in [0, 1). -/
lemma candidateAt_within_boundary (rand : ℕ → ℝ) (j : ℕ)
    (h0 : 0 ≤ rand (j + 1)) (h1 : rand (j + 1) < 1) :
    Real.sqrt ((candidateAt rand j).x * (candidateAt rand j).x +
        (candidateAt rand j).z * (candidateAt rand j).z) ≤ boundaryRadius := by
  set a := rand j * Real.pi * 2 with ha
  set d := rand (j + 1) * boundaryRadius with hd
  have hx : (candidateAt rand j).x = Real.cos a * d := rfl
  have hz : (candidateAt rand j).z = Real.sin a * d := rfl
  have hdnn : 0 ≤ d := by
    have : (0:ℝ) ≤ boundaryRadius := by norm_num [boundaryRadius]
    exact mul_nonneg h0 this
  have hsum : (candidateAt rand j).x * (candidateAt rand j).x +
      (candidateAt rand j).z * (candidateAt rand j).z = d ^ 2 := by
    rw [hx, hz]
    have hpyth := Real.sin_sq_add_cos_sq a
    nlinarith [hpyth]
  rw [hsum, Real.sqrt_sq hdnn, hd]
  have hb : (0:ℝ) < boundaryRadius := by norm_num [boundaryRadius]
  nlinarith

/-- The idle branch of updateWalking never touches isAnimating, and neither
does any other branch: updateWalking preserves the reacting flag. -/
lemma updateWalking_isAnimating (rand : ℕ → ℝ) (deltaTime : ℝ) (s : Cat) (k : ℕ) :
    (updateWalking rand deltaTime s k).1.isAnimating = s.isAnimating := by
  unfold updateWalking
  by_cases hidle : s.isIdle
  · rw [if_pos hidle]
    by_cases hdur : s.idleTime + deltaTime ≥ s.idleDuration
    · simp only [hdur, if_true]
      have := (pickNewTarget_fields rand { s with isIdle := false, idleTime := 0 } k).2.2.2.2.1
      simpa [animateLegs] using this
    · simp only [hdur, if_false]
      simp [animateLegs]
  · rw [if_neg hidle]
    by_cases harr : targetDistance s < 0.2
    · rw [if_pos harr]
      simp [animateLegs]
    · rw [if_neg harr]
      by_cases hcoll : collidesWithObstacle s.obstacles (nextPosition s deltaTime)
      · rw [if_pos hcoll]
        have := (pickNewTarget_fields rand
          { s with rotY := s.rotY + normalizedAngleDiff s * deltaTime * 3 } k).2.2.2.2.1
        simpa using this
      · rw [if_neg hcoll]
        simp [animateLegs]

/-- Characterization of the redirect tick of updateWalking: when the entity
is walking (not idle), has not arrived, and the proposed next step
collides (default step buffer), the whole call reduces to rotating the
heading by the proportional term and re-running destination selection. -/
lemma updateWalking_redirect (rand : ℕ → ℝ) (deltaTime : ℝ) (s : Cat) (k : ℕ)
    (hIdle : s.isIdle = false)
    (hFar : ¬ targetDistance s < 0.2)
    (hColl : collidesWithObstacle s.obstacles (nextPosition s deltaTime)) :
    updateWalking rand deltaTime s k =
      pickNewTarget rand
        { s with rotY := s.rotY + normalizedAngleDiff s * deltaTime * 3 } k := by
  unfold updateWalking
  rw [hIdle]
  simp only [Bool.false_eq_true, if_false, if_neg hFar, if_pos hColl]

/-- When the entity is not reacting, update is exactly the tail sway
followed by updateWalking (the reaction part does not run, because
updateWalking preserves the cleared reacting flag). -/
lemma update_not_animating (rand : ℕ → ℝ) (now deltaTime : ℝ) (s : Cat) (k : ℕ)
    (h : s.isAnimating = false) :
    update rand now deltaTime s k =
      updateWalking rand deltaTime { s with tailRotZ := Real.sin (now * 0.003) * 0.3 } k := by
  unfold update
  simp [h, updateWalking_isAnimating]

/-- Completion branch of the reaction animation: when the entity is
reacting and the incremented progress reaches 1, the update call resets
pose and reaction state (and leaves the wander state alone). -/
lemma update_animating_done (rand : ℕ → ℝ) (now deltaTime : ℝ) (s : Cat) (k : ℕ)
    (h : s.isAnimating = true)
    (hge : s.animationProgress + deltaTime / 3 ≥ 1) :
    update rand now deltaTime s k =
      ({ s with tailRotZ := Real.sin (now * 0.003) * 0.3,
                position := { s.position with y := s.originalY },
                scale := ⟨1, 1, 1⟩,
                isAnimating := false,
                animationProgress := 0,
                mouthScaleY := mouthClosedScaleY }, k) := by
  unfold update
  have hge3 : s.animationProgress + deltaTime / 3.0 ≥ 1 := by
    norm_num at hge ⊢
    linarith
  simp [h, hge3]

/-- Continuation branch of the reaction animation: when the entity is
reacting and the incremented progress p stays below 1, the update call
stores p and applies the bounce / squash-stretch / mouth pose computed
from p. -/
lemma update_animating_continue (rand : ℕ → ℝ) (now deltaTime : ℝ) (s : Cat) (k : ℕ)
    (h : s.isAnimating = true)
    (hlt : s.animationProgress + deltaTime / 3 < 1) :
    update rand now deltaTime s k =
      ({ s with tailRotZ := Real.sin (now * 0.003) * 0.3,
                animationProgress := s.animationProgress + deltaTime / 3,
                position := { s.position with
                  y := s.originalY +
                    |Real.sin ((s.animationProgress + deltaTime / 3) * Real.pi * 3)| * 0.3 *
                      (1 - (s.animationProgress + deltaTime / 3) * 0.7) },
                scale := ⟨1 +
                    |Real.sin ((s.animationProgress + deltaTime / 3) * Real.pi * 3)| * 0.08 *
                      (1 - (s.animationProgress + deltaTime / 3) * 0.7),
                  1 +
                    |Real.sin ((s.animationProgress + deltaTime / 3) * Real.pi * 3)| * 0.1 *
                      (1 - (s.animationProgress + deltaTime / 3) * 0.7),
                  1 -
                    |Real.sin ((s.animationProgress + deltaTime / 3) * Real.pi * 3)| * 0.04 *
                      (1 - (s.animationProgress + deltaTime / 3) * 0.7)⟩,
                mouthScaleY := mouthClosedScaleY +
                  (mouthOpenScaleY - mouthClosedScaleY) *
                    |Real.sin ((s.animationProgress + deltaTime / 3) * Real.pi * 3)| *
                      (1 - (s.animationProgress + deltaTime / 3) * 0.7) }, k) := by
  unfold update
  have hlt3 : ¬ s.animationProgress + deltaTime / 3.0 ≥ 1 := by
    norm_num at hlt ⊢
    linarith
  simp [h, hlt3]
  norm_num

/-! ## Claim theorems -/

/-- C7: the obstacle query holds iff some registered obstacle has planar
(x,z) Euclidean distance to the candidate strictly below its radius plus
the buffer; the buffer defaults to 0.5 when not supplied (as used by the
locomotion step check), while one attempt of the destination sampler
rejects its candidate exactly under the query with buffer 0.8. -/
theorem collides_characterization :
    (∀ (obstacles : List Obstacle) (position : Vec3) (buffer : ℝ),
      collidesWithObstacle obstacles position buffer ↔
        ∃ o ∈ obstacles,
          Real.sqrt ((position.x - o.position.x) * (position.x - o.position.x) +
              (position.z - o.position.z) * (position.z - o.position.z)) <
            o.radius + buffer) ∧
    (∀ (obstacles : List Obstacle) (position : Vec3),
      collidesWithObstacle obstacles position ↔
        collidesWithObstacle obstacles position 0.5) ∧
    (∀ (obstacles : List Obstacle) (rand : ℕ → ℝ) (k : ℕ),
      (pickLoop obstacles rand 1 k).1 = none ↔
        collidesWithObstacle obstacles (candidateAt rand k) 0.8) := by
  refine ⟨collidesWithObstacle_iff_exists, fun obstacles position => Iff.rfl, ?_⟩
  intro obstacles rand k
  by_cases hc : collidesWithObstacle obstacles (candidateAt rand k) 0.8
  · simp [pickLoop, hc]
  · simp [pickLoop, hc]

/-- C8: the leg animator sets the front-left and back-right swing angles to
sin(phase) * 0.3 and the front-right and back-left swing angles to the
negation, for every entity and phase; at phase 0 all four swing angles
are zero. -/
theorem animateLegs_gait :
    (∀ (s : Cat) (phase : ℝ),
      (animateLegs s phase).frontLeftLegRotX = Real.sin phase * 0.3 ∧
      (animateLegs s phase).backRightLegRotX = Real.sin phase * 0.3 ∧
      (animateLegs s phase).frontRightLegRotX = -(Real.sin phase * 0.3) ∧
      (animateLegs s phase).backLeftLegRotX = -(Real.sin phase * 0.3)) ∧
    (∀ s : Cat,
      (animateLegs s 0).frontLeftLegRotX = 0 ∧
      (animateLegs s 0).frontRightLegRotX = 0 ∧
      (animateLegs s 0).backLeftLegRotX = 0 ∧
      (animateLegs s 0).backRightLegRotX = 0) := by
  constructor
  · intro s phase
    refine ⟨rfl, rfl, rfl, rfl⟩
  · intro s
    simp [animateLegs]

/-- C2: for a reacting entity (with non-negative progress and deltaTime, the
documented invariants), after any update call the reaction progress lies
in [0,1); and when the increment deltaTime/3 makes progress reach or
exceed 1, the same call returns with the vertical position equal to the
construction-time resting height, the root scale equal to (1,1,1), the
mouth vertical scale equal to the closed extent 0.3, the reacting flag
cleared and the progress equal to 0 - all exactly. -/
theorem update_reaction_progress_invariant (rand : ℕ → ℝ) (now deltaTime : ℝ)
    (s : Cat) (k : ℕ)
    (h : s.isAnimating = true)
    (hp : 0 ≤ s.animationProgress)
    (hd : 0 ≤ deltaTime) :
    (0 ≤ (update rand now deltaTime s k).1.animationProgress ∧
      (update rand now deltaTime s k).1.animationProgress < 1) ∧
    (1 ≤ s.animationProgress + deltaTime / 3 →
      (update rand now deltaTime s k).1.position.y = s.originalY ∧
      (update rand now deltaTime s k).1.scale.x = 1 ∧
      (update rand now deltaTime s k).1.scale.y = 1 ∧
      (update rand now deltaTime s k).1.scale.z = 1 ∧
      (update rand now deltaTime s k).1.mouthScaleY = 0.3 ∧
      (update rand now deltaTime s k).1.isAnimating = false ∧
      (update rand now deltaTime s k).1.animationProgress = 0) := by
  by_cases hge : s.animationProgress + deltaTime / 3 ≥ 1
  · rw [update_animating_done rand now deltaTime s k h hge]
    refine ⟨by norm_num, fun _ => ?_⟩
    norm_num [mouthClosedScaleY]
  · have hlt : s.animationProgress + deltaTime / 3 < 1 := not_le.mp hge
    rw [update_animating_continue rand now deltaTime s k h hlt]
    refine ⟨⟨?_, ?_⟩, fun habs => absurd habs hge⟩
    · have : (0:ℝ) ≤ deltaTime / 3 := by positivity
      simpa using add_nonneg hp this
    · simpa using hlt

/-- C3: a reacting entity's update call leaves the planar position, the
heading, the destination, the idle flag, both idle timers and the
walk-phase accumulator unchanged; the reaction animation only writes the
vertical offset, the scale and the mouth pose. -/
theorem update_reaction_freezes_wander (rand : ℕ → ℝ) (now deltaTime : ℝ)
    (s : Cat) (k : ℕ)
    (h : s.isAnimating = true) :
    (update rand now deltaTime s k).1.position.x = s.position.x ∧
    (update rand now deltaTime s k).1.position.z = s.position.z ∧
    (update rand now deltaTime s k).1.rotY = s.rotY ∧
    (update rand now deltaTime s k).1.targetPosition = s.targetPosition ∧
    (update rand now deltaTime s k).1.isIdle = s.isIdle ∧
    (update rand now deltaTime s k).1.idleTime = s.idleTime ∧
    (update rand now deltaTime s k).1.idleDuration = s.idleDuration ∧
    (update rand now deltaTime s k).1.walkTime = s.walkTime := by
  by_cases hge : s.animationProgress + deltaTime / 3 ≥ 1
  · rw [update_animating_done rand now deltaTime s k h hge]
    simp
  · rw [update_animating_continue rand now deltaTime s k h (not_le.mp hge)]
    simp

/-- C6: for a reacting entity whose post-increment progress p stays in
(0,1), the update call stores p and sets, with bounce the absolute sine
of p * pi * 3 and fadeOut = 1 - 0.7 p: vertical position
originalY + bounce * 0.3 * fadeOut, scale
(1 + bounce * 0.08 * fadeOut, 1 + bounce * 0.1 * fadeOut,
1 - bounce * 0.04 * fadeOut) and mouth vertical scale
0.3 + (1.2 - 0.3) * bounce * fadeOut. -/
theorem update_reaction_pose (rand : ℕ → ℝ) (now deltaTime : ℝ) (s : Cat) (k : ℕ)
    (p : ℝ)
    (h : s.isAnimating = true)
    (hpdef : p = s.animationProgress + deltaTime / 3)
    (h0 : 0 < p)
    (h1 : p < 1) :
    (update rand now deltaTime s k).1.animationProgress = p ∧
    (update rand now deltaTime s k).1.position.y =
      s.originalY + |Real.sin (p * Real.pi * 3)| * 0.3 * (1 - 0.7 * p) ∧
    (update rand now deltaTime s k).1.scale.x =
      1 + |Real.sin (p * Real.pi * 3)| * 0.08 * (1 - 0.7 * p) ∧
    (update rand now deltaTime s k).1.scale.y =
      1 + |Real.sin (p * Real.pi * 3)| * 0.1 * (1 - 0.7 * p) ∧
    (update rand now deltaTime s k).1.scale.z =
      1 - |Real.sin (p * Real.pi * 3)| * 0.04 * (1 - 0.7 * p) ∧
    (update rand now deltaTime s k).1.mouthScaleY =
      0.3 + (1.2 - 0.3) * |Real.sin (p * Real.pi * 3)| * (1 - 0.7 * p) := by
  subst hpdef
  rw [update_animating_continue rand now deltaTime s k h h1]
  refine ⟨by simp, ?_, ?_, ?_, ?_, ?_⟩
  · simp only
    ring
  · simp only
    ring
  · simp only
    ring
  · simp only
    ring
  · simp only [mouthClosedScaleY, mouthOpenScaleY]
    ring

/-- C1 (amended): if every one of the 10 candidates sampled by a single
pickNewTarget call collides under the destination buffer 0.8, the
destination is left unchanged - it keeps the value it had before the
call (the last candidate is not stored); only the idle duration is
re-randomized, from the 21st random draw of the call. -/
theorem pickNewTarget_exhaustion_keeps_previous (rand : ℕ → ℝ) (s : Cat) (k : ℕ)
    (h : ∀ i, i < 10 →
      collidesWithObstacle s.obstacles (candidateAt rand (k + 2 * i)) 0.8) :
    (pickNewTarget rand s k).1.targetPosition = s.targetPosition ∧
    (pickNewTarget rand s k).1.idleDuration = 1 + rand (k + 20) * 3 := by
  have hnone := pickLoop_none_of_collides s.obstacles rand 10 k h
  unfold pickNewTarget
  rw [hnone]
  norm_num

/-- C9: an entity constructed with an absent audio buffer holds no sound
handle; and onClick on a soundless entity is a pure animation trigger -
it only sets the reacting flag and resets the reaction progress to 0,
which is exactly the effect onClick always has on the reaction state. -/
theorem onClick_silent_degradation :
    (∀ (rand : ℕ → ℝ) (position : Vec3) (k : ℕ),
      (mkCat rand position none k).1.sound = none) ∧
    (∀ s : Cat, s.sound = none →
      onClick s = { s with isAnimating := true, animationProgress := 0 }) ∧
    (∀ s : Cat,
      (onClick s).isAnimating = true ∧ (onClick s).animationProgress = 0) := by
  refine ⟨?_, ?_, ?_⟩
  · intro rand position k
    unfold mkCat
    rw [(pickNewTarget_fields rand _ k).2.2.2.1]
    rfl
  · intro s hs
    simp [onClick, hs]
  · intro s
    exact ⟨rfl, rfl⟩

/-- C4: whenever the retry loop of pickNewTarget accepts a candidate within
its 10-attempt budget (random draws lie in [0,1), Math.random's contract),
the destination stored by the call is that candidate; it lies within the
boundary radius of the world origin and its planar distance to every
registered obstacle's center is at least that obstacle's radius plus the
destination buffer 0.8. -/
theorem pickNewTarget_accepted_within_bounds (rand : ℕ → ℝ) (s : Cat) (k k2 : ℕ)
    (c : Vec3)
    (hrand : ∀ n, 0 ≤ rand n ∧ rand n < 1)
    (hacc : pickLoop s.obstacles rand 10 k = (some c, k2)) :
    (pickNewTarget rand s k).1.targetPosition = c ∧
    Real.sqrt (c.x * c.x + c.z * c.z) ≤ boundaryRadius ∧
    ∀ o ∈ s.obstacles,
      o.radius + 0.8 ≤
        Real.sqrt ((c.x - o.position.x) * (c.x - o.position.x) +
            (c.z - o.position.z) * (c.z - o.position.z)) := by
  obtain ⟨j, hcj, hnc⟩ := pickLoop_some_spec s.obstacles rand 10 k c k2 hacc
  refine ⟨?_, ?_, ?_⟩
  · unfold pickNewTarget
    rw [hacc]
  · rw [hcj]
    exact candidateAt_within_boundary rand j (hrand (j + 1)).1 (hrand (j + 1)).2
  · intro o ho
    rw [collidesWithObstacle_iff_exists] at hnc
    push_neg at hnc
    have := hnc o ho
    rw [hcj]
    simpa using this

/-- C5: on a tick where a walking (not idle, not reacting) entity's proposed
next step collides under the step buffer, the update call leaves the
planar position unchanged (no partial step) and replaces the destination
with the output of the destination-selection routine run on this tick. -/
theorem update_redirect_discards_destination (rand : ℕ → ℝ) (now deltaTime : ℝ)
    (s : Cat) (k : ℕ)
    (hAnim : s.isAnimating = false)
    (hIdle : s.isIdle = false)
    (hFar : ¬ targetDistance s < 0.2)
    (hColl : collidesWithObstacle s.obstacles (nextPosition s deltaTime)) :
    (update rand now deltaTime s k).1.position.x = s.position.x ∧
    (update rand now deltaTime s k).1.position.z = s.position.z ∧
    (update rand now deltaTime s k).1.targetPosition =
      (pickNewTarget rand s k).1.targetPosition := by
  rw [update_not_animating rand now deltaTime s k hAnim]
  have hIdle0 : ({ s with tailRotZ := Real.sin (now * 0.003) * 0.3 } : Cat).isIdle = false :=
    hIdle
  have hFar0 : ¬ targetDistance { s with tailRotZ := Real.sin (now * 0.003) * 0.3 } < 0.2 :=
    hFar
  have hColl0 : collidesWithObstacle
      ({ s with tailRotZ := Real.sin (now * 0.003) * 0.3 } : Cat).obstacles
      (nextPosition { s with tailRotZ := Real.sin (now * 0.003) * 0.3 } deltaTime) :=
    hColl
  rw [updateWalking_redirect rand deltaTime _ k hIdle0 hFar0 hColl0]
  refine ⟨?_, ?_, ?_⟩
  · rw [(pickNewTarget_fields rand _ k).1]
  · rw [(pickNewTarget_fields rand _ k).1]
  · exact pickNewTarget_target_congr rand _ s k rfl rfl

/-- C10 (amended): on a redirect tick the heading has already been updated
by the proportional term before the collision test runs - the new yaw is
exactly the old yaw plus normalizedDiff * deltaTime * 3 - while the
planar position does not change; the yaw therefore differs from its
pre-tick value whenever that proportional term is nonzero (but is
unchanged when the entity already faces its destination). -/
theorem updateWalking_redirect_rotates_before_test (rand : ℕ → ℝ) (deltaTime : ℝ)
    (s : Cat) (k : ℕ)
    (hIdle : s.isIdle = false)
    (hFar : ¬ targetDistance s < 0.2)
    (hColl : collidesWithObstacle s.obstacles (nextPosition s deltaTime)) :
    (updateWalking rand deltaTime s k).1.rotY =
      s.rotY + normalizedAngleDiff s * deltaTime * 3 ∧
    (updateWalking rand deltaTime s k).1.position.x = s.position.x ∧
    (updateWalking rand deltaTime s k).1.position.z = s.position.z ∧
    (normalizedAngleDiff s * deltaTime * 3 ≠ 0 →
      (updateWalking rand deltaTime s k).1.rotY ≠ s.rotY) := by
  rw [updateWalking_redirect rand deltaTime s k hIdle hFar hColl]
  refine ⟨?_, ?_, ?_, ?_⟩
  · rw [(pickNewTarget_fields rand _ k).2.1]
  · rw [(pickNewTarget_fields rand _ k).1]
  · rw [(pickNewTarget_fields rand _ k).1]
  · intro hne
    rw [(pickNewTarget_fields rand _ k).2.1]
    intro habs
    apply hne
    have : s.rotY + normalizedAngleDiff s * deltaTime * 3 = s.rotY := habs
    linarith

/-! ## Concrete instantiations -/

/-- A degenerate random stream that always returns 0 (a legal Math.random
value); every sampled candidate is then the world origin. -/
def r0 : ℕ → ℝ := fun _ => 0

/-- A random stream that always returns one half; the first sampled
candidate is then at angle pi and distance 5. -/
noncomputable def rhalf : ℕ → ℝ := fun _ => 1 / 2

/-- A neutral concrete entity state: at the origin, mouth closed, not
reacting, not idle, no obstacles, zero target. -/
noncomputable def baseCat : Cat := {
  position := ⟨0, 0, 0⟩,
  rotY := 0,
  scale := ⟨1, 1, 1⟩,
  sound := none,
  isAnimating := false,
  animationProgress := 0,
  originalY := 0,
  tailRotZ := 0,
  mouthScaleY := mouthClosedScaleY,
  targetPosition := ⟨0, 0, 0⟩,
  walkTime := 0,
  idleTime := 0,
  isIdle := false,
  idleDuration := 0,
  obstacles := [],
  frontLeftLegRotX := 0,
  frontRightLegRotX := 0,
  backLeftLegRotX := 0,
  backRightLegRotX := 0 }

/-- Entity whose destination is (5,0,5) while an obstacle of radius 2 sits
at the origin: under the stream r0 all ten sampled candidates are the
origin and every one of them collides. -/
noncomputable def cat1c : Cat :=
  { baseCat with targetPosition := ⟨5, 0, 5⟩,
                 obstacles := [⟨⟨0, 0, 0⟩, 2⟩] }

/-- Under the all-zero stream every sampled candidate of cat1c collides with
the origin obstacle under the destination buffer. -/
lemma cat1c_all_collide (j : ℕ) :
    collidesWithObstacle cat1c.obstacles (candidateAt r0 j) 0.8 := by
  have hx : (candidateAt r0 j).x = 0 := by
    simp [candidateAt, r0]
  have hz : (candidateAt r0 j).z = 0 := by
    simp [candidateAt, r0]
  show Real.sqrt _ < 2 + 0.8 ∨ collidesWithObstacle [] (candidateAt r0 j) 0.8
  left
  rw [hx, hz]
  norm_num

/-- C1 counterexample: with the all-zero stream and the obstacle layout of
cat1c, the retry loop exhausts all 10 attempts (premise of the claim),
yet the destination after the call is still the previous (5,0,5) while
the 10th sampled candidate (random indices 18,19) is the origin - the
destination does not equal the last sampled candidate. -/
theorem pickNewTarget_exhaustion_cex :
    (pickLoop cat1c.obstacles r0 10 0).1 = none ∧
    (pickNewTarget r0 cat1c 0).1.targetPosition.x = 5 ∧
    (candidateAt r0 18).x = 0 ∧
    (candidateAt r0 18).z = 0 ∧
    (5 : ℝ) ≠ 0 := by
  have hnone := pickLoop_none_of_collides cat1c.obstacles r0 10 0
    (fun i _ => cat1c_all_collide (0 + 2 * i))
  refine ⟨by rw [hnone], ?_, by simp [candidateAt, r0], by simp [candidateAt, r0],
    by norm_num⟩
  unfold pickNewTarget
  rw [hnone]
  rfl

/-- C1 witness: the amended theorem applied at the concrete state cat1c with
the all-zero stream: the destination survives the exhausted call. -/
theorem pickNewTarget_exhaustion_witness :
    (pickNewTarget r0 cat1c 0).1.targetPosition = cat1c.targetPosition ∧
    (pickNewTarget r0 cat1c 0).1.idleDuration = 1 + r0 20 * 3 :=
  pickNewTarget_exhaustion_keeps_previous r0 cat1c 0
    (fun i _ => cat1c_all_collide (0 + 2 * i))

/-- C4 witness: with no obstacles and the constant-half stream the very
first candidate is accepted; the theorem instantiated there gives the
stored destination and its boundary bound. -/
theorem pickNewTarget_accepted_witness :
    (pickNewTarget rhalf baseCat 0).1.targetPosition = candidateAt rhalf 0 ∧
    Real.sqrt ((candidateAt rhalf 0).x * (candidateAt rhalf 0).x +
        (candidateAt rhalf 0).z * (candidateAt rhalf 0).z) ≤ boundaryRadius := by
  have hacc : pickLoop baseCat.obstacles rhalf 10 0 = (some (candidateAt rhalf 0), 2) := by
    have hnc : ¬ collidesWithObstacle baseCat.obstacles (candidateAt rhalf 0) 0.8 := by
      show ¬ False
      exact not_false
    rw [pickLoop, if_neg hnc]
  have h := pickNewTarget_accepted_within_bounds rhalf baseCat 0 2 (candidateAt rhalf 0)
    (fun n => by norm_num [rhalf]) hacc
  exact ⟨h.1, h.2.1⟩

/-- A reacting concrete state with progress 0.9: one more second of update
completes the reaction. -/
noncomputable def cat2w : Cat :=
  { baseCat with isAnimating := true, animationProgress := 0.9 }

/-- C2 witness: the invariant theorem applied to cat2w with deltaTime 1 -
the reset branch fires (0.9 + 1/3 reaches 1) and the post-state has the
documented exact resting pose and progress 0. -/
theorem update_reaction_progress_witness :
    ((update r0 0 1 cat2w 0).1.position.y = cat2w.originalY ∧
      (update r0 0 1 cat2w 0).1.scale.x = 1 ∧
      (update r0 0 1 cat2w 0).1.scale.y = 1 ∧
      (update r0 0 1 cat2w 0).1.scale.z = 1 ∧
      (update r0 0 1 cat2w 0).1.mouthScaleY = 0.3 ∧
      (update r0 0 1 cat2w 0).1.isAnimating = false ∧
      (update r0 0 1 cat2w 0).1.animationProgress = 0) ∧
    (0 ≤ (update r0 0 1 cat2w 0).1.animationProgress ∧
      (update r0 0 1 cat2w 0).1.animationProgress < 1) := by
  have h := update_reaction_progress_invariant r0 0 1 cat2w 0 rfl
    (by norm_num [cat2w, baseCat]) (by norm_num)
  exact ⟨h.2 (by norm_num [cat2w, baseCat]), h.1⟩

/-- C3 witness: the freeze theorem applied to the reacting state cat2w with
deltaTime 1: every wander-related observable is unchanged. -/
theorem update_reaction_freezes_witness :
    (update r0 0 1 cat2w 0).1.position.x = cat2w.position.x ∧
    (update r0 0 1 cat2w 0).1.position.z = cat2w.position.z ∧
    (update r0 0 1 cat2w 0).1.rotY = cat2w.rotY ∧
    (update r0 0 1 cat2w 0).1.targetPosition = cat2w.targetPosition ∧
    (update r0 0 1 cat2w 0).1.isIdle = cat2w.isIdle ∧
    (update r0 0 1 cat2w 0).1.idleTime = cat2w.idleTime ∧
    (update r0 0 1 cat2w 0).1.idleDuration = cat2w.idleDuration ∧
    (update r0 0 1 cat2w 0).1.walkTime = cat2w.walkTime :=
  update_reaction_freezes_wander r0 0 1 cat2w 0 rfl

/-- A reacting concrete state with progress 0.1: one more second of update
keeps the reaction going at post-increment progress 13/30. -/
noncomputable def cat6w : Cat :=
  { baseCat with isAnimating := true, animationProgress := 0.1 }

/-- C6 witness: the pose theorem applied to cat6w with deltaTime 1, where
the post-increment progress is 13/30. -/
theorem update_reaction_pose_witness :
    (update r0 0 1 cat6w 0).1.animationProgress = 13 / 30 ∧
    (update r0 0 1 cat6w 0).1.position.y =
      cat6w.originalY + |Real.sin (13 / 30 * Real.pi * 3)| * 0.3 * (1 - 0.7 * (13 / 30)) ∧
    (update r0 0 1 cat6w 0).1.scale.x =
      1 + |Real.sin (13 / 30 * Real.pi * 3)| * 0.08 * (1 - 0.7 * (13 / 30)) ∧
    (update r0 0 1 cat6w 0).1.scale.y =
      1 + |Real.sin (13 / 30 * Real.pi * 3)| * 0.1 * (1 - 0.7 * (13 / 30)) ∧
    (update r0 0 1 cat6w 0).1.scale.z =
      1 - |Real.sin (13 / 30 * Real.pi * 3)| * 0.04 * (1 - 0.7 * (13 / 30)) ∧
    (update r0 0 1 cat6w 0).1.mouthScaleY =
      0.3 + (1.2 - 0.3) * |Real.sin (13 / 30 * Real.pi * 3)| * (1 - 0.7 * (13 / 30)) :=
  update_reaction_pose r0 0 1 cat6w 0 (13 / 30) rfl
    (by norm_num [cat6w, baseCat]) (by norm_num) (by norm_num)

/-- C9 witness: a silent construction holds no sound handle, and onClick on
the soundless baseCat only sets the reacting flag and zeroes progress. -/
theorem onClick_silent_witness :
    (mkCat r0 ⟨0, 0, 0⟩ none 0).1.sound = none ∧
    onClick baseCat = { baseCat with isAnimating := true, animationProgress := 0 } ∧
    (onClick baseCat).isAnimating = true ∧
    (onClick baseCat).animationProgress = 0 :=
  ⟨onClick_silent_degradation.1 r0 ⟨0, 0, 0⟩ 0,
   onClick_silent_degradation.2.1 baseCat rfl,
   (onClick_silent_degradation.2.2 baseCat).1,
   (onClick_silent_degradation.2.2 baseCat).2⟩

/-- A walking concrete state: at (0,0,3) heading for the origin, with an
obstacle of radius 1 at (0,0,2) squarely blocking the next step. -/
noncomputable def cat5w : Cat :=
  { baseCat with position := ⟨0, 0, 3⟩,
                 obstacles := [⟨⟨0, 0, 2⟩, 1⟩] }

/-- The distance from cat5w to its destination is 3. -/
lemma cat5w_distance : targetDistance cat5w = 3 := by
  have hsum : directionX cat5w * directionX cat5w +
      directionZ cat5w * directionZ cat5w = 9 := by
    simp [directionX, directionZ, cat5w, baseCat]
    norm_num
  rw [targetDistance, hsum, show (9:ℝ) = 3 ^ 2 by norm_num,
    Real.sqrt_sq (by norm_num : (0:ℝ) ≤ 3)]

/-- cat5w has not arrived: its distance to the destination is not below 0.2. -/
lemma cat5w_far : ¬ targetDistance cat5w < 0.2 := by
  rw [cat5w_distance]
  norm_num

/-- With deltaTime 1 the proposed next step of cat5w is (0,0,2.2), which is
0.2 away from the obstacle center at (0,0,2) - well inside radius 1 plus
the step buffer 0.5, so the step collides. -/
lemma cat5w_step_collides :
    collidesWithObstacle cat5w.obstacles (nextPosition cat5w 1) := by
  have hnx : (nextPosition cat5w 1).x = 0 := by
    show cat5w.position.x + directionX cat5w / targetDistance cat5w * (walkSpeed * 1) = 0
    rw [cat5w_distance]
    simp [directionX, cat5w, baseCat, walkSpeed]
  have hnz : (nextPosition cat5w 1).z = 2.2 := by
    show cat5w.position.z + directionZ cat5w / targetDistance cat5w * (walkSpeed * 1) = 2.2
    rw [cat5w_distance]
    simp [directionZ, cat5w, baseCat, walkSpeed]
    norm_num
  show Real.sqrt _ < 1 + 0.5 ∨ collidesWithObstacle [] (nextPosition cat5w 1) 0.5
  left
  rw [hnx, hnz]
  have hin : ((0:ℝ) - (⟨⟨0, 0, 2⟩, 1⟩ : Obstacle).position.x) *
      (0 - (⟨⟨0, 0, 2⟩, 1⟩ : Obstacle).position.x) +
      (2.2 - (⟨⟨0, 0, 2⟩, 1⟩ : Obstacle).position.z) *
      (2.2 - (⟨⟨0, 0, 2⟩, 1⟩ : Obstacle).position.z) = 0.2 ^ 2 := by norm_num
  rw [hin, Real.sqrt_sq (by norm_num : (0:ℝ) ≤ 0.2)]
  norm_num

/-- C5 witness: the redirect theorem applied at cat5w with deltaTime 1: the
planar position survives the tick and the destination is replaced by the
output of the selection routine. -/
theorem update_redirect_witness :
    (update r0 0 1 cat5w 0).1.position.x = cat5w.position.x ∧
    (update r0 0 1 cat5w 0).1.position.z = cat5w.position.z ∧
    (update r0 0 1 cat5w 0).1.targetPosition =
      (pickNewTarget r0 cat5w 0).1.targetPosition :=
  update_redirect_discards_destination r0 0 1 cat5w 0 rfl rfl cat5w_far
    cat5w_step_collides

/-- C10 witness: the amended theorem applied at cat5w with deltaTime 1: on
the redirect tick the yaw has been advanced by the proportional term and
the planar position is unchanged. -/
theorem updateWalking_rotates_witness :
    (updateWalking r0 1 cat5w 0).1.rotY =
      cat5w.rotY + normalizedAngleDiff cat5w * 1 * 3 ∧
    (updateWalking r0 1 cat5w 0).1.position.x = cat5w.position.x ∧
    (updateWalking r0 1 cat5w 0).1.position.z = cat5w.position.z := by
  have h := updateWalking_redirect_rotates_before_test r0 1 cat5w 0 rfl cat5w_far
    cat5w_step_collides
  exact ⟨h.1, h.2.1, h.2.2.1⟩

/-- atan2 of (0, 1) is 0 (the heading that already faces the destination
produces a zero wrapped difference). -/
lemma atan2_zero_one : atan2 0 1 = 0 := by
  unfold atan2
  rw [show (⟨1, 0⟩ : ℂ) = 1 from by simp [Complex.ext_iff]]
  exact Complex.arg_one

/-- atan2 of (0, -1) is pi (the desired heading for a straight -z walk). -/
lemma atan2_zero_neg_one : atan2 0 (-1) = Real.pi := by
  unfold atan2
  rw [show (⟨-1, 0⟩ : ℂ) = -1 from by simp [Complex.ext_iff]]
  exact Complex.arg_neg_one

/-- The cat5w scenario with the heading already aligned to the destination:
the proportional rotation term is zero on the redirect tick. -/
noncomputable def cat10c : Cat := { cat5w with rotY := Real.pi }

/-- The desired heading of cat10c is pi (walking straight toward -z). -/
lemma cat10c_desired : desiredAngle cat10c = Real.pi := by
  have h3 : targetDistance cat10c = 3 := cat5w_distance
  have hx : directionX cat10c = 0 := by
    norm_num [directionX, cat10c, cat5w, baseCat]
  have hz : directionZ cat10c = -3 := by
    norm_num [directionZ, cat10c, cat5w, baseCat]
  rw [desiredAngle, h3, hx, hz]
  rw [show (0:ℝ) / 3 = 0 by norm_num, show (-3:ℝ) / 3 = -1 by norm_num]
  exact atan2_zero_neg_one

/-- cat10c already faces its destination, so the wrapped angle difference
is zero. -/
lemma cat10c_diff_zero : normalizedAngleDiff cat10c = 0 := by
  rw [normalizedAngleDiff, cat10c_desired]
  rw [show cat10c.rotY = Real.pi from rfl, sub_self, Real.sin_zero, Real.cos_zero]
  exact atan2_zero_one

/-- C10 counterexample: cat10c is on a redirect tick (walking, not arrived,
next step collides), yet its yaw after the tick equals its yaw before -
the claim that the yaw changes on every redirect tick fails when the
entity already faces its destination. -/
theorem updateWalking_redirect_yaw_unchanged_cex :
    cat10c.isIdle = false ∧
    ¬ targetDistance cat10c < 0.2 ∧
    collidesWithObstacle cat10c.obstacles (nextPosition cat10c 1) ∧
    (updateWalking r0 1 cat10c 0).1.rotY = cat10c.rotY := by
  have hfar : ¬ targetDistance cat10c < 0.2 := cat5w_far
  have hcoll : collidesWithObstacle cat10c.obstacles (nextPosition cat10c 1) :=
    cat5w_step_collides
  refine ⟨rfl, hfar, hcoll, ?_⟩
  rw [updateWalking_redirect r0 1 cat10c 0 rfl hfar hcoll]
  rw [(pickNewTarget_fields r0 _ 0).2.1]
  show cat10c.rotY + normalizedAngleDiff cat10c * 1 * 3 = cat10c.rotY
  rw [cat10c_diff_zero]
  ring
